/-
Verification of `eddy_pro_files/(co)spectras/plot_(co)spectras.py` from
OzFlux/data_analysis.

The script is a linear pandas/matplotlib pipeline:
  get_good_files    - read the EddyPro full_output CSV, keep rows whose
                      qc_co2_flux (Foken flag) is 0, return their filenames;
  merge_good_files  - for each good filename build the pattern
                      f[5:13] + "-" + f[-8:-4], glob
                      eddypro_full_cospectra for *pattern*.csv, read the first
                      match with na_values=-9999, dropna, and store the
                      columns f_nat*spec(ts) / f_nat*cospec(w_ts) under the
                      pattern name in two DataFrames;
  plot_spectras / plot_cospectras - plot the per-row median of the table and
                      a lowess smooth of it (frac 0.01 with the first 40
                      smoothed points dropped, resp. frac 0.05 with all
                      points); the cospectra figure additionally overlays the
                      power law y = 0.006 * x^(-4/3) on linspace(0.2, 5);
  main              - composes the stages in order.

Shallow embedding notes.
* CSV files are modelled at the parsed-record level: a full_output row is a
  (filename, qc_co2_flux) record (the script reads the file with
  skiprows=[0, 2]; we start from the resulting table), and a (co)spectra
  file is a named list of rows, each row being the frequency index cell
  plus the data cells f_nat*spec(ts), f_nat*cospec(w_ts) and the remaining
  columns (the script reads with skiprows=12, index_col=0; we start from
  the parsed rows).
* Numeric cells are modelled as rationals.  na_values=-9999 marks a data
  cell missing exactly when its value is -9999; dropna removes a row when
  any data cell is missing (the index is not a column, so it is not
  inspected, matching pandas DataFrame.dropna).
* A pandas DataFrame is an index list plus an association list of named
  columns; each stored cell is Option Rat (none = NaN).  Column assignment
  df[key] = series follows pandas: on an empty frame it adopts the series
  index, otherwise it aligns the series to the existing index (missing
  index values become NaN) and replaces the column if the key exists, else
  appends it.
* The glob call for folder + "/*" + pattern + "*.csv" is modelled as
  filtering the folder listing for names that end in ".csv" and contain
  the pattern before the extension; [0] is List.head?, and the IndexError
  handler that skips the timestamp is the none branch.
* The lowess smoother is external (statsmodels); it is a parameter
  (y-values, x-values, frac, it) -> smoothed points.  matplotlib calls are
  modelled by recording the plotted curves in a figure description.
-/
import Mathlib

set_option autoImplicit false

namespace PlotCospectras

/-- One parsed row of the EddyPro full_output table: the raw 10 Hz input
filename and the CO2-flux Foken quality flag. -/
structure FullOutputRow where
  filename : String
  qc_co2_flux : Int
  deriving DecidableEq, Repr

/-- `get_good_files`: keep the rows whose `qc_co2_flux` is 0 (the
`df.query` call) and return their `filename` values, in table order. -/
def get_good_files (rows : List FullOutputRow) : List String :=
  (rows.filter (fun r => r.qc_co2_flux == 0)).map (fun r => r.filename)

/-- Python index normalisation for a slice bound: a negative bound counts
from the end and is clamped to 0, a nonnegative bound is clamped to the
length. -/
def pyIdx (n : Nat) (i : Int) : Nat :=
  if i < 0 then ((n : Int) + i).toNat else min i.toNat n

/-- Python slice `s[a:b]`. -/
def pySlice (s : List Char) (a b : Int) : List Char :=
  (s.take (pyIdx s.length b)).drop (pyIdx s.length a)

/-- The pattern f-string of `merge_good_files`: `f[5:13]` + "-" + `f[-8:-4]`. -/
def filePattern (f : String) : String :=
  String.mk (pySlice f.data 5 13) ++ "-" ++ String.mk (pySlice f.data (-8) (-4))

/-- `pat` occurs as a contiguous block somewhere in `s`. -/
def occursIn (pat : List Char) : List Char → Bool
  | [] => pat.isEmpty
  | c :: t => pat.isPrefixOf (c :: t) || occursIn pat t

/-- Whether a file name matches the glob `*{pattern}*.csv`: it ends in
".csv" and the pattern occurs before the extension. -/
def globMatches (pattern name : String) : Bool :=
  ".csv".data.isSuffixOf name.data &&
    occursIn pattern.data (name.data.take (name.data.length - 4))

/-- One parsed data row of a full_cospectra file: the natural-frequency
index cell followed by the data cells. -/
structure SpecRow where
  freq : Rat
  spec_ts : Rat
  cospec_w_ts : Rat
  others : List Rat
  deriving DecidableEq, Repr

/-- The na_values=-9999 configuration: a data cell is missing exactly when
it holds the sentinel. -/
def isNA (x : Rat) : Bool := x == -9999

/-- A data row contains a missing value in some column (the index is not a
column, so it is not inspected, as in pandas dropna). -/
def rowHasNA (r : SpecRow) : Bool :=
  isNA r.spec_ts || isNA r.cospec_w_ts || r.others.any isNA

/-- `read_csv(..., na_values=-9999)` followed by `df.dropna()`: only the
rows without missing values remain. -/
def dropna (rows : List SpecRow) : List SpecRow :=
  rows.filter (fun r => !rowHasNA r)

/-- A file of the eddypro_full_cospectra folder: its name and its parsed
data rows. -/
structure CospectraFile where
  name : String
  rows : List SpecRow
  deriving DecidableEq, Repr

/-- A named column series of the cleaned file, as (index, value) pairs. -/
def seriesOf (proj : SpecRow → Rat) (rows : List SpecRow) : List (Rat × Rat) :=
  (dropna rows).map (fun r => (r.freq, proj r))

/-- `df['f_nat*spec(ts)']` of the cleaned file. -/
def specSeries (rows : List SpecRow) : List (Rat × Rat) :=
  seriesOf (fun r => r.spec_ts) rows

/-- `df['f_nat*cospec(w_ts)']` of the cleaned file. -/
def cospecSeries (rows : List SpecRow) : List (Rat × Rat) :=
  seriesOf (fun r => r.cospec_w_ts) rows

/-- A pandas DataFrame: frequency index plus named columns of optional
cells (none = NaN). -/
structure DataFrame where
  index : List Rat
  cols : List (String × List (Option Rat))
  deriving DecidableEq, Repr

/-- `pd.DataFrame()`. -/
def emptyDF : DataFrame := ⟨[], []⟩

/-- Index lookup used by pandas alignment: the first series value at the
given index, none when the index value is absent. -/
def lookupIdx (s : List (Rat × Rat)) (q : Rat) : Option Rat :=
  (s.find? (fun p => p.1 == q)).map (fun p => p.2)

/-- Reindex a series to a target index, filling NaN where absent. -/
def alignTo (idx : List Rat) (s : List (Rat × Rat)) : List (Option Rat) :=
  idx.map (lookupIdx s)

/-- `df[key] = series`: an empty frame adopts the series index; otherwise
the series is aligned to the existing index and the column is replaced if
the key exists, else appended. -/
def setColumn (df : DataFrame) (key : String) (s : List (Rat × Rat)) : DataFrame :=
  if df.cols.isEmpty then
    ⟨s.map (fun p => p.1), [(key, s.map (fun p => some p.2))]⟩
  else if df.cols.any (fun c => c.1 == key) then
    ⟨df.index, df.cols.map (fun c => if c.1 == key then (key, alignTo df.index s) else c)⟩
  else
    ⟨df.index, df.cols ++ [(key, alignTo df.index s)]⟩

/-- The column names of a frame, in order. -/
def colKeys (df : DataFrame) : List String := df.cols.map (fun c => c.1)

/-- The glob over the eddypro_full_cospectra folder for `*{pattern}*.csv`. -/
def globCospectra (folder : List CospectraFile) (pattern : String) :
    List CospectraFile :=
  folder.filter (fun file => globMatches pattern file.name)

/-- One iteration of the `merge_good_files` loop for filename `f`: build
the pattern, take the first glob match (the IndexError handler skips the
timestamp when there is none), read and clean the file, and assign its two
series as columns named by the pattern. -/
def mergeStep (folder : List CospectraFile) (st : DataFrame × DataFrame)
    (f : String) : DataFrame × DataFrame :=
  match (globCospectra folder (filePattern f)).head? with
  | none => st
  | some file =>
      (setColumn st.1 (filePattern f) (specSeries file.rows),
       setColumn st.2 (filePattern f) (cospecSeries file.rows))

/-- `merge_good_files`: fold the loop over the good filenames, starting
from two empty frames, returning (good_spectras, good_cospectras). -/
def merge_good_files (good_files : List String) (folder : List CospectraFile) :
    DataFrame × DataFrame :=
  good_files.foldl (mergeStep folder) (emptyDF, emptyDF)

/-- Insert a value into a sorted list of rationals. -/
def insertSorted (x : Rat) : List Rat → List Rat
  | [] => [x]
  | y :: ys => if x ≤ y then x :: y :: ys else y :: insertSorted x ys

/-- Sort a list of rationals (insertion sort). -/
def sortRats (xs : List Rat) : List Rat := xs.foldr insertSorted []

/-- The median of the present values of a row: middle element of the
sorted values, or the mean of the two middle elements; NaN (none) when the
row has no values. -/
def median (xs : List Rat) : Option Rat :=
  let s := sortRats xs
  let n := s.length
  if n = 0 then none
  else if n % 2 = 1 then s[n / 2]?
  else match s[n / 2 - 1]?, s[n / 2]? with
    | some a, some b => some ((a + b) / 2)
    | _, _ => none

/-- The values present in row `i` of the frame (NaN cells are skipped, as
pandas `median(axis=1)` does). -/
def rowCells (df : DataFrame) (i : Nat) : List Rat :=
  df.cols.filterMap (fun c => (c.2[i]?).join)

/-- `df.median(axis=1).values`: one (possibly NaN) median per index entry. -/
def rowMedians (df : DataFrame) : List (Option Rat) :=
  (List.range df.index.length).map (fun i => median (rowCells df i))

/-- `df.median(axis=1)` as an index-value series, as plotted. -/
def medianSeries (df : DataFrame) : List (Rat × Option Rat) :=
  df.index.zip (rowMedians df)

/-- Interface of the external statsmodels lowess smoother: endogenous
values (the median curve, possibly with NaNs), exogenous values (the
frequency index), the window fraction frac, and the iteration count it;
the result is the list of smoothed (x, y) points. -/
def LowessFn : Type :=
  List (Option Rat) → List Rat → Rat → Nat → List (Rat × Rat)

/-- A plotted data curve: its legend label, matplotlib style string, and
points (the y value may be NaN). -/
structure Curve where
  label : String
  style : String
  pts : List (Rat × Option Rat)
  deriving DecidableEq, Repr

/-- A fixed power-law reference curve y = coeff * x ^ expo, kept symbolic
(its y values are real powers evaluated by numpy); xs is the x grid. -/
structure PowerLawCurve where
  label : String
  style : String
  coeff : Rat
  expo : Rat
  xs : List Rat
  deriving DecidableEq, Repr

/-- A figure description: the pyplot figure number, the data curves in
plotting order, the overlaid power-law reference curves, the axis labels
and the log-scale flags. -/
structure PlotFig where
  figId : Nat
  curves : List Curve
  powerRefs : List PowerLawCurve
  xlabel : String
  ylabel : String
  xlog : Bool
  ylog : Bool
  deriving DecidableEq, Repr

/-- `np.linspace(a, b, n)`, endpoint included (the script uses the default
n = 50). -/
def linspace (a b : Rat) (n : Nat) : List Rat :=
  if n = 0 then []
  else if n = 1 then [a]
  else (List.range n).map (fun i => a + (b - a) * i / (n - 1))

/-- `plot_spectras`: figure 1 plots the per-row median of the spectra
table as black dots and, over it, the lowess smooth with frac=0.01 and
it=0 with its first 40 points dropped, on log-log axes. -/
def plot_spectras (lowessFn : LowessFn) (df : DataFrame) : PlotFig :=
  let smoothed := lowessFn (rowMedians df) df.index (1 / 100) 0
  { figId := 1
    curves := [{ label := "median data with QC flag 0", style := "k.",
                 pts := medianSeries df },
               { label := "lowess fit", style := "b",
                 pts := (smoothed.drop 40).map (fun p => (p.1, some p.2)) }]
    powerRefs := []
    xlabel := "f (Hz)"
    ylabel := "spectra (T)"
    xlog := true
    ylog := true }

/-- `plot_cospectras`: figure 2 plots the per-row median of the cospectra
table, the lowess smooth with frac=0.05 and it=0 (no points dropped), and
the ideal-slope reference y = 0.006 * x ^ (-4/3) on linspace(0.2, 5), on
log-log axes. -/
def plot_cospectras (lowessFn : LowessFn) (df : DataFrame) : PlotFig :=
  let smoothed := lowessFn (rowMedians df) df.index (5 / 100) 0
  { figId := 2
    curves := [{ label := "median data with QC flag 0", style := "k.",
                 pts := medianSeries df },
               { label := "lowess fit", style := "b",
                 pts := smoothed.map (fun p => (p.1, some p.2)) }]
    powerRefs := [{ label := "-4/3 slope", style := "r--",
                    coeff := 6 / 1000, expo := -(4 / 3),
                    xs := linspace (2 / 10) 5 50 }]
    xlabel := "f (Hz)"
    ylabel := "cospectra (w/T)"
    xlog := true
    ylog := true }

/-- `main`: filter the full_output table, merge the good files, then plot
the spectra table as figure 1 and the cospectra table as figure 2. -/
def main (lowessFn : LowessFn) (full_output : List FullOutputRow)
    (folder : List CospectraFile) : PlotFig × PlotFig :=
  let good_files := get_good_files full_output
  let merged := merge_good_files good_files folder
  (plot_spectras lowessFn merged.1, plot_cospectras lowessFn merged.2)

/-- Provenance of every stored cell of a frame: each non-NaN cell is the
`proj` value of some row, with no missing data cell, of some file of the
folder. -/
def CellsFrom (folder : List CospectraFile) (proj : SpecRow → Rat)
    (df : DataFrame) : Prop :=
  ∀ c ∈ df.cols, ∀ ov ∈ c.2, ∀ v : Rat, ov = some v →
    ∃ file ∈ folder, ∃ r ∈ file.rows, rowHasNA r = false ∧ v = proj r

/-- Provenance of a whole column: it is the series of some folder file,
either stored directly (first assignment) or aligned to the frame index. -/
def ColFrom (folder : List CospectraFile) (proj : SpecRow → Rat)
    (idx : List Rat) (c : String × List (Option Rat)) : Prop :=
  ∃ file ∈ folder,
    c.2 = (seriesOf proj file.rows).map (fun p => some p.2) ∨
    c.2 = alignTo idx (seriesOf proj file.rows)

/-- Sample good-file list used to evaluate the pipeline on concrete data:
one raw filename whose parsed pattern is "20190712-0230". -/
def sampleGoodFiles : List String := ["xxxxx20190712_0230.csv"]

/-- Sample full_cospectra file matching the pattern "20190712-0230"; its
second row carries the -9999 sentinel and is dropped. -/
def sampleFile : CospectraFile :=
  { name := "eddypro_full_cospectra_20190712-0230_x.csv"
    rows := [⟨1, 2, 3, []⟩, ⟨2, -9999, 4, []⟩] }

/-- Sample eddypro_full_cospectra folder listing. -/
def sampleFolder : List CospectraFile := [sampleFile]

/-- Sample single-column frame used to evaluate the plot functions. -/
def sampleDF : DataFrame := ⟨[1], [("c", [some 2])]⟩

end PlotCospectras

namespace PlotCospectras

/-- C1 (counterexample): the claimed per-row equivalence "its filename is in
the returned array iff that row's qc_co2_flux is 0" fails when two rows
share a filename: with rows [("a", 0), ("a", 1)] the second row's filename
is returned (because of the first row) although its own flag is 1. -/
theorem get_good_files_claim_counterexample :
    ¬ (∀ r ∈ [FullOutputRow.mk "a" 0, FullOutputRow.mk "a" 1],
        r.filename ∈ get_good_files [FullOutputRow.mk "a" 0, FullOutputRow.mk "a" 1] ↔
          r.qc_co2_flux = 0) := by
  intro h
  have h2 := (h (FullOutputRow.mk "a" 1) (by simp)).mp (by simp [get_good_files])
  simp at h2

/-- C1 (amended): `get_good_files` returns exactly the set of filename
values of rows whose qc_co2_flux is 0: a filename is in the result iff some
row of the table carries it together with flag 0. -/
theorem get_good_files_spec (rows : List FullOutputRow) (f : String) :
    f ∈ get_good_files rows ↔ ∃ r ∈ rows, r.filename = f ∧ r.qc_co2_flux = 0 := by
  simp only [get_good_files, List.mem_map, List.mem_filter, beq_iff_eq]
  constructor
  · rintro ⟨r, ⟨hr, hq⟩, hf⟩
    exact ⟨r, hr, hf, hq⟩
  · rintro ⟨r, hr, hf, hq⟩
    exact ⟨r, ⟨hr, hq⟩, hf⟩

/-- C1 (witness): the amended equivalence evaluated on a concrete table. -/
theorem get_good_files_spec_witness :
    "a" ∈ get_good_files [FullOutputRow.mk "a" 0, FullOutputRow.mk "b" 1] :=
  (get_good_files_spec [FullOutputRow.mk "a" 0, FullOutputRow.mk "b" 1] "a").mpr
    ⟨FullOutputRow.mk "a" 0, by simp, rfl, rfl⟩

/-- Fold induction: an invariant preserved by every loop step holds for
the whole fold. -/
theorem foldl_inv {α σ : Type _} (f : σ → α → σ) (P : σ → Prop)
    (l : List α) (init : σ) (h0 : P init)
    (hstep : ∀ s a, a ∈ l → P s → P (f s a)) : P (l.foldl f init) := by
  induction l generalizing init with
  | nil => exact h0
  | cons a t ih =>
      exact ih (f init a) (hstep init a (List.mem_cons_self a t) h0)
        (fun s b hb hs => hstep s b (List.mem_cons_of_mem a hb) hs)

/-- The head of a list (when present) is a member. -/
theorem mem_of_head_some {α : Type _} {l : List α} {a : α}
    (h : l.head? = some a) : a ∈ l := by
  cases l with
  | nil => simp at h
  | cons b t =>
      simp only [List.head?_cons, Option.some.injEq] at h
      exact h ▸ List.mem_cons_self b t

/-- A value produced by the alignment lookup is a value of the series. -/
theorem lookupIdx_mem (s : List (Rat × Rat)) (q : Rat) (v : Rat)
    (h : lookupIdx s q = some v) : ∃ p ∈ s, p.2 = v := by
  unfold lookupIdx at h
  cases hf : s.find? (fun p => p.1 == q) with
  | none => simp [hf] at h
  | some p =>
      simp only [hf, Option.map_some', Option.some.injEq] at h
      exact ⟨p, List.mem_of_find?_eq_some hf, h⟩

/-- Every non-NaN cell of an aligned column is a value of the series. -/
theorem alignTo_cells (idx : List Rat) (s : List (Rat × Rat)) (ov : Option Rat)
    (hov : ov ∈ alignTo idx s) (v : Rat) (hv : ov = some v) : ∃ p ∈ s, p.2 = v := by
  unfold alignTo at hov
  rcases List.mem_map.mp hov with ⟨q, _, hq⟩
  exact lookupIdx_mem s q v (by rw [hq, hv])

/-- Every value of a column series of a cleaned file comes from a row of
the file with no missing data cell. -/
theorem seriesOf_mem (proj : SpecRow → Rat) (rows : List SpecRow)
    (p : Rat × Rat) (hp : p ∈ seriesOf proj rows) :
    ∃ r ∈ rows, rowHasNA r = false ∧ p.2 = proj r := by
  unfold seriesOf dropna at hp
  rcases List.mem_map.mp hp with ⟨r, hr, hpr⟩
  rcases List.mem_filter.mp hr with ⟨hrows, hna⟩
  refine ⟨r, hrows, by simpa using hna, ?_⟩
  rw [← hpr]

/-- Column assignment preserves cell provenance when every value of the
assigned series has it. -/
theorem cellsFrom_setColumn (folder : List CospectraFile) (proj : SpecRow → Rat)
    (df : DataFrame) (key : String) (s : List (Rat × Rat))
    (hdf : CellsFrom folder proj df)
    (hs : ∀ p ∈ s, ∃ file ∈ folder, ∃ r ∈ file.rows,
        rowHasNA r = false ∧ p.2 = proj r) :
    CellsFrom folder proj (setColumn df key s) := by
  have hdirect : ∀ ov ∈ s.map (fun p => some p.2), ∀ v : Rat, ov = some v →
      ∃ file ∈ folder, ∃ r ∈ file.rows, rowHasNA r = false ∧ v = proj r := by
    intro ov hov v hv
    rcases List.mem_map.mp hov with ⟨p, hp, hpv⟩
    rcases hs p hp with ⟨file, hfile, r, hr, hna, hproj⟩
    have hvp : v = p.2 := by rw [← hpv] at hv; exact (Option.some.injEq _ _ ▸ hv).symm
    exact ⟨file, hfile, r, hr, hna, hvp ▸ hproj⟩
  have haligned : ∀ idx, ∀ ov ∈ alignTo idx s, ∀ v : Rat, ov = some v →
      ∃ file ∈ folder, ∃ r ∈ file.rows, rowHasNA r = false ∧ v = proj r := by
    intro idx ov hov v hv
    rcases alignTo_cells idx s ov hov v hv with ⟨p, hp, hpv⟩
    rcases hs p hp with ⟨file, hfile, r, hr, hna, hproj⟩
    exact ⟨file, hfile, r, hr, hna, hpv ▸ hproj⟩
  intro c hc ov hov v hv
  unfold setColumn at hc
  split at hc
  · rcases List.mem_singleton.mp hc with rfl
    exact hdirect ov hov v hv
  · split at hc
    · rcases List.mem_map.mp hc with ⟨c0, hc0, hcc⟩
      by_cases hk : (c0.1 == key) = true
      · rw [if_pos hk] at hcc
        rw [← hcc] at hov
        exact haligned df.index ov hov v hv
      · rw [if_neg hk] at hcc
        exact hdf c0 hc0 ov (hcc ▸ hov) v hv
    · rcases List.mem_append.mp hc with hc0 | hc0
      · exact hdf c hc0 ov hov v hv
      · rcases List.mem_singleton.mp hc0 with rfl
        exact haligned df.index ov hov v hv

/-- The invariant of the merge loop: all cells of the first frame are
spec(ts) values and all cells of the second are cospec(w_ts) values of
clean rows of folder files. -/
def MergeInv (folder : List CospectraFile) (st : DataFrame × DataFrame) : Prop :=
  CellsFrom folder (fun r => r.spec_ts) st.1 ∧
  CellsFrom folder (fun r => r.cospec_w_ts) st.2

/-- One merge-loop iteration preserves the cell-provenance invariant. -/
theorem mergeInv_mergeStep (folder : List CospectraFile)
    (st : DataFrame × DataFrame) (f : String) (h : MergeInv folder st) :
    MergeInv folder (mergeStep folder st f) := by
  unfold mergeStep
  split
  · exact h
  · rename_i file heq
    have hfile : file ∈ folder :=
      (List.mem_filter.mp (mem_of_head_some heq)).1
    constructor
    · exact cellsFrom_setColumn folder _ st.1 (filePattern f) (specSeries file.rows)
        h.1 (fun p hp => ⟨file, hfile, seriesOf_mem _ file.rows p hp⟩)
    · exact cellsFrom_setColumn folder _ st.2 (filePattern f) (cospecSeries file.rows)
        h.2 (fun p hp => ⟨file, hfile, seriesOf_mem _ file.rows p hp⟩)

/-- A row without missing cells does not carry the sentinel in the
spec(ts) column. -/
theorem spec_ts_ne_sentinel (r : SpecRow) (h : rowHasNA r = false) :
    r.spec_ts ≠ -9999 := by
  simp only [rowHasNA, isNA, Bool.or_eq_false_iff, beq_eq_false_iff_ne, ne_eq] at h
  exact h.1.1

/-- A row without missing cells does not carry the sentinel in the
cospec(w_ts) column. -/
theorem cospec_ne_sentinel (r : SpecRow) (h : rowHasNA r = false) :
    r.cospec_w_ts ≠ -9999 := by
  simp only [rowHasNA, isNA, Bool.or_eq_false_iff, beq_eq_false_iff_ne, ne_eq] at h
  exact h.1.2

/-- The merged frames satisfy the cell-provenance invariant. -/
theorem merge_good_files_inv (gf : List String) (folder : List CospectraFile) :
    MergeInv folder (merge_good_files gf folder) := by
  unfold merge_good_files
  refine foldl_inv (mergeStep folder) (MergeInv folder) gf (emptyDF, emptyDF)
    ?_ (fun s a _ hs => mergeInv_mergeStep folder s a hs)
  constructor <;> intro c hc <;> simp [emptyDF] at hc

/-- C2: when merge_good_files reads a (co)spectra file, a data cell is
missing exactly when it is the sentinel -9999, and every row with a
missing value is dropped: every non-NaN cell of either merged table is
the spec(ts) resp. cospec(w_ts) value of a folder-file row that has no
-9999 in any data column; in particular no stored value is -9999. -/
theorem merge_good_files_no_na (gf : List String) (folder : List CospectraFile) :
    (∀ x : Rat, isNA x = true ↔ x = -9999) ∧
    CellsFrom folder (fun r => r.spec_ts) (merge_good_files gf folder).1 ∧
    CellsFrom folder (fun r => r.cospec_w_ts) (merge_good_files gf folder).2 ∧
    (∀ c ∈ (merge_good_files gf folder).1.cols, ∀ ov ∈ c.2, ∀ v : Rat,
        ov = some v → v ≠ -9999) ∧
    (∀ c ∈ (merge_good_files gf folder).2.cols, ∀ ov ∈ c.2, ∀ v : Rat,
        ov = some v → v ≠ -9999) := by
  have hinv := merge_good_files_inv gf folder
  refine ⟨fun x => by simp [isNA], hinv.1, hinv.2, ?_, ?_⟩
  · intro c hc ov hov v hv
    rcases hinv.1 c hc ov hov v hv with ⟨file, _, r, _, hna, hval⟩
    exact hval ▸ spec_ts_ne_sentinel r hna
  · intro c hc ov hov v hv
    rcases hinv.2 c hc ov hov v hv with ⟨file, _, r, _, hna, hval⟩
    exact hval ▸ cospec_ne_sentinel r hna

/-- C2 (witness): on the sample data the cell value 2 of the merged
spectra table traces back to the clean first row of the sample file. -/
theorem merge_good_files_no_na_witness :
    ∃ file ∈ sampleFolder, ∃ r ∈ file.rows,
      rowHasNA r = false ∧ (2 : Rat) = r.spec_ts :=
  (merge_good_files_no_na sampleGoodFiles sampleFolder).2.1
    ("20190712-0230", [some 2]) (by decide) (some 2) (by decide) 2 rfl

/-- The key check of setColumn agrees with a check over the key list. -/
theorem any_fst_eq_any_keys (l : List (String × List (Option Rat))) (key : String) :
    l.any (fun c => c.1 == key) = (l.map (fun c => c.1)).any (fun k => k == key) := by
  induction l with
  | nil => rfl
  | cons c t ih => simp [ih]

/-- Frames with equal key lists have columns that are empty together. -/
theorem isEmpty_cols_congr (df1 df2 : DataFrame) (h : colKeys df1 = colKeys df2) :
    df1.cols.isEmpty = df2.cols.isEmpty := by
  cases h1 : df1.cols <;> cases h2 : df2.cols <;> simp_all [colKeys]

/-- The key list after a column assignment: a single key on an empty
frame, unchanged keys on an overwrite, the appended key otherwise. -/
theorem colKeys_setColumn (df : DataFrame) (key : String) (s : List (Rat × Rat)) :
    colKeys (setColumn df key s) =
      if df.cols.isEmpty then [key]
      else if df.cols.any (fun c => c.1 == key) then colKeys df
      else colKeys df ++ [key] := by
  by_cases h1 : df.cols.isEmpty = true
  · simp [setColumn, colKeys, h1]
  · by_cases h2 : df.cols.any (fun c => c.1 == key) = true
    · simp only [setColumn, colKeys, h1, h2, if_true, if_false, Bool.false_eq_true,
        List.map_map]
      refine List.map_congr_left ?_
      intro c hc
      simp only [Function.comp_apply]
      by_cases hk : (c.1 == key) = true
      · rw [if_pos hk]
        exact (beq_iff_eq.mp hk).symm
      · rw [if_neg hk]
    · simp [setColumn, colKeys, h1, h2]

/-- A key present before a column assignment is present after it. -/
theorem mem_colKeys_setColumn_of_mem (df : DataFrame) (key k : String)
    (s : List (Rat × Rat)) (hk : k ∈ colKeys df) :
    k ∈ colKeys (setColumn df key s) := by
  rw [colKeys_setColumn]
  by_cases h1 : df.cols.isEmpty = true
  · rw [if_pos h1]
    have : df.cols = [] := by simpa using h1
    simp [colKeys, this] at hk
  · rw [if_neg h1]
    by_cases h2 : df.cols.any (fun c => c.1 == key) = true
    · rw [if_pos h2]; exact hk
    · rw [if_neg h2]; exact List.mem_append_left _ hk

/-- The assigned key is present after a column assignment. -/
theorem key_mem_colKeys_setColumn (df : DataFrame) (key : String)
    (s : List (Rat × Rat)) : key ∈ colKeys (setColumn df key s) := by
  rw [colKeys_setColumn]
  by_cases h1 : df.cols.isEmpty = true
  · simp [h1]
  · rw [if_neg h1]
    by_cases h2 : df.cols.any (fun c => c.1 == key) = true
    · rw [if_pos h2]
      rcases List.any_eq_true.mp h2 with ⟨c, hc, hck⟩
      have hkey : c.1 = key := beq_iff_eq.mp hck
      exact hkey ▸ List.mem_map_of_mem (fun c => c.1) hc
    · rw [if_neg h2]
      simp

/-- Any key present after a column assignment was present before or is
the assigned key. -/
theorem mem_colKeys_setColumn_cases (df : DataFrame) (key k : String)
    (s : List (Rat × Rat)) (hk : k ∈ colKeys (setColumn df key s)) :
    k ∈ colKeys df ∨ k = key := by
  rw [colKeys_setColumn] at hk
  by_cases h1 : df.cols.isEmpty = true
  · rw [if_pos h1] at hk
    exact Or.inr (List.mem_singleton.mp hk)
  · rw [if_neg h1] at hk
    by_cases h2 : df.cols.any (fun c => c.1 == key) = true
    · rw [if_pos h2] at hk; exact Or.inl hk
    · rw [if_neg h2] at hk
      rcases List.mem_append.mp hk with h | h
      · exact Or.inl h
      · exact Or.inr (List.mem_singleton.mp h)

/-- Keys already present in both frames survive a merge-loop iteration. -/
theorem mem_colKeys_mergeStep (folder : List CospectraFile)
    (st : DataFrame × DataFrame) (f : String) (k : String)
    (h1 : k ∈ colKeys st.1) (h2 : k ∈ colKeys st.2) :
    k ∈ colKeys (mergeStep folder st f).1 ∧
    k ∈ colKeys (mergeStep folder st f).2 := by
  unfold mergeStep
  split
  · exact ⟨h1, h2⟩
  · exact ⟨mem_colKeys_setColumn_of_mem st.1 _ k _ h1,
      mem_colKeys_setColumn_of_mem st.2 _ k _ h2⟩

/-- After the merge loop has processed a good filename whose glob lookup
succeeded, its pattern names a column of both frames. -/
theorem pattern_key_present (gf : List String) (folder : List CospectraFile)
    (f : String) (hf : f ∈ gf) (file : CospectraFile)
    (hhead : (globCospectra folder (filePattern f)).head? = some file) :
    filePattern f ∈ colKeys (merge_good_files gf folder).1 ∧
    filePattern f ∈ colKeys (merge_good_files gf folder).2 := by
  rcases List.append_of_mem hf with ⟨s, t, rfl⟩
  unfold merge_good_files
  rw [List.foldl_append, List.foldl_cons]
  have hkey : ∀ st : DataFrame × DataFrame,
      filePattern f ∈ colKeys (mergeStep folder st f).1 ∧
      filePattern f ∈ colKeys (mergeStep folder st f).2 := by
    intro st
    unfold mergeStep
    split
    · rename_i heq
      rw [heq] at hhead
      exact absurd hhead (by simp)
    · exact ⟨key_mem_colKeys_setColumn st.1 _ _, key_mem_colKeys_setColumn st.2 _ _⟩
  exact foldl_inv (mergeStep folder)
    (fun st => filePattern f ∈ colKeys st.1 ∧ filePattern f ∈ colKeys st.2) t _
    (hkey (List.foldl (mergeStep folder) (emptyDF, emptyDF) s))
    (fun st a _ h => mem_colKeys_mergeStep folder st a _ h.1 h.2)

/-- Every column key of the merged frames has a matching folder file. -/
def KeysMatched (folder : List CospectraFile) (df : DataFrame) : Prop :=
  ∀ k ∈ colKeys df, ∃ file ∈ folder, globMatches k file.name = true

/-- The merge loop only ever adds keys whose glob lookup succeeded. -/
theorem keysMatched_merge (gf : List String) (folder : List CospectraFile) :
    KeysMatched folder (merge_good_files gf folder).1 ∧
    KeysMatched folder (merge_good_files gf folder).2 := by
  unfold merge_good_files
  refine foldl_inv (mergeStep folder)
    (fun st => KeysMatched folder st.1 ∧ KeysMatched folder st.2) gf
    (emptyDF, emptyDF) ⟨fun k hk => by simp [colKeys, emptyDF] at hk,
      fun k hk => by simp [colKeys, emptyDF] at hk⟩ ?_
  intro st f _ hst
  unfold mergeStep
  split
  · exact hst
  · rename_i file heq
    have hmem := List.mem_filter.mp (mem_of_head_some heq)
    constructor
    · intro k hk
      rcases mem_colKeys_setColumn_cases st.1 _ k _ hk with h | h
      · exact hst.1 k h
      · exact ⟨file, hmem.1, h ▸ hmem.2⟩
    · intro k hk
      rcases mem_colKeys_setColumn_cases st.2 _ k _ hk with h | h
      · exact hst.2 k h
      · exact ⟨file, hmem.1, h ▸ hmem.2⟩

/-- The parsed pattern in terms of character positions, for filenames of
at least 13 characters: characters 5..12, a hyphen, and the 4 characters
starting 8 from the end. -/
theorem filePattern_data (f : String) (hlen : 13 ≤ f.data.length) :
    (filePattern f).data =
      ((f.data.drop 5).take 8) ++ '-' :: ((f.data.drop (f.data.length - 8)).take 4) := by
  have h5 : pyIdx f.data.length 5 = 5 := by
    unfold pyIdx
    rw [if_neg (by norm_num), show (5 : Int).toNat = 5 from rfl,
      Nat.min_eq_left (by omega)]
  have h13 : pyIdx f.data.length 13 = 13 := by
    unfold pyIdx
    rw [if_neg (by norm_num), show (13 : Int).toNat = 13 from rfl,
      Nat.min_eq_left (by omega)]
  have hm8 : pyIdx f.data.length (-8) = f.data.length - 8 := by
    unfold pyIdx
    rw [if_pos (by norm_num)]
    omega
  have hm4 : pyIdx f.data.length (-4) = f.data.length - 4 := by
    unfold pyIdx
    rw [if_pos (by norm_num)]
    omega
  unfold filePattern pySlice
  rw [h5, h13, hm8, hm4, List.drop_take, List.drop_take]
  have h4 : f.data.length - 4 - (f.data.length - 8) = 4 := by omega
  rw [h4]
  simp [String.data_append]

/-- C3: for a good filename paired with a (co)spectra file, the merge is
keyed by the pattern f[5:13] + "-" + f[-8:-4]: the pattern consists of
exactly those characters, every glob hit has the pattern in its file name,
and the pattern names a column of both output tables. -/
theorem merge_good_files_pattern_key (gf : List String)
    (folder : List CospectraFile) (f : String) (hf : f ∈ gf)
    (hlen : 13 ≤ f.data.length) :
    (filePattern f).data =
      ((f.data.drop 5).take 8) ++ '-' :: ((f.data.drop (f.data.length - 8)).take 4) ∧
    (∀ file ∈ globCospectra folder (filePattern f),
        globMatches (filePattern f) file.name = true) ∧
    (∀ file, (globCospectra folder (filePattern f)).head? = some file →
        filePattern f ∈ colKeys (merge_good_files gf folder).1 ∧
        filePattern f ∈ colKeys (merge_good_files gf folder).2) := by
  refine ⟨filePattern_data f hlen, ?_, ?_⟩
  · intro file hfile
    exact (List.mem_filter.mp hfile).2
  · intro file hhead
    exact pattern_key_present gf folder f hf file hhead

/-- C3 (witness): the pattern of the sample filename names a column of
the merged spectra table. -/
theorem merge_good_files_pattern_key_witness :
    filePattern "xxxxx20190712_0230.csv" ∈
      colKeys (merge_good_files sampleGoodFiles sampleFolder).1 :=
  ((merge_good_files_pattern_key sampleGoodFiles sampleFolder
      "xxxxx20190712_0230.csv" (by decide) (by decide)).2.2 sampleFile (by decide)).1

/-- C8: a good filename with no matching (co)spectra file is skipped
silently: the merged tables contain a column named by its parsed pattern
iff some file of the folder matches the pattern glob. -/
theorem merge_good_files_skips_missing (gf : List String)
    (folder : List CospectraFile) (f : String) (hf : f ∈ gf) :
    (filePattern f ∈ colKeys (merge_good_files gf folder).1 ↔
      ∃ file ∈ folder, globMatches (filePattern f) file.name = true) ∧
    (filePattern f ∈ colKeys (merge_good_files gf folder).2 ↔
      ∃ file ∈ folder, globMatches (filePattern f) file.name = true) := by
  have hexists : (∃ file ∈ folder, globMatches (filePattern f) file.name = true) →
      ∃ file, (globCospectra folder (filePattern f)).head? = some file := by
    rintro ⟨file, hfile, hmatch⟩
    have hmem : file ∈ globCospectra folder (filePattern f) :=
      List.mem_filter.mpr ⟨hfile, hmatch⟩
    cases hgl : globCospectra folder (filePattern f) with
    | nil => rw [hgl] at hmem; simp at hmem
    | cons a t => exact ⟨a, rfl⟩
  constructor
  · constructor
    · intro hk
      exact (keysMatched_merge gf folder).1 (filePattern f) hk
    · intro hx
      rcases hexists hx with ⟨file, hhead⟩
      exact (pattern_key_present gf folder f hf file hhead).1
  · constructor
    · intro hk
      exact (keysMatched_merge gf folder).2 (filePattern f) hk
    · intro hx
      rcases hexists hx with ⟨file, hhead⟩
      exact (pattern_key_present gf folder f hf file hhead).2

/-- C8 (witness): on the sample data the presence of the sample pattern
column yields the matching folder file. -/
theorem merge_good_files_skips_missing_witness :
    ∃ file ∈ sampleFolder,
      globMatches (filePattern "xxxxx20190712_0230.csv") file.name = true :=
  ((merge_good_files_skips_missing sampleGoodFiles sampleFolder
      "xxxxx20190712_0230.csv" (by decide)).1).mp (by decide)

/-- The columns of a frame after a column assignment, by case. -/
theorem cols_setColumn (df : DataFrame) (key : String) (s : List (Rat × Rat)) :
    (setColumn df key s).cols =
      if df.cols.isEmpty then [(key, s.map (fun p => some p.2))]
      else if df.cols.any (fun c => c.1 == key) then
        df.cols.map (fun c => if c.1 == key then (key, alignTo df.index s) else c)
      else df.cols ++ [(key, alignTo df.index s)] := by
  unfold setColumn
  by_cases h1 : df.cols.isEmpty = true
  · rw [if_pos h1, if_pos h1]
  · rw [if_neg h1, if_neg h1]
    by_cases h2 : df.cols.any (fun c => c.1 == key) = true
    · rw [if_pos h2, if_pos h2]
    · rw [if_neg h2, if_neg h2]

/-- The index of a frame after a column assignment: adopted from the
series on an empty frame, unchanged otherwise. -/
theorem index_setColumn (df : DataFrame) (key : String) (s : List (Rat × Rat)) :
    (setColumn df key s).index =
      if df.cols.isEmpty then s.map (fun p => p.1) else df.index := by
  unfold setColumn
  by_cases h1 : df.cols.isEmpty = true
  · rw [if_pos h1, if_pos h1]
  · rw [if_neg h1, if_neg h1]
    by_cases h2 : df.cols.any (fun c => c.1 == key) = true
    · rw [if_pos h2]
    · rw [if_neg h2]

/-- Assigning the series of a folder file preserves column provenance. -/
theorem colFrom_setColumn (folder : List CospectraFile) (proj : SpecRow → Rat)
    (df : DataFrame) (key : String) (file : CospectraFile) (hfile : file ∈ folder)
    (hdf : ∀ c ∈ df.cols, ColFrom folder proj df.index c) :
    ∀ c ∈ (setColumn df key (seriesOf proj file.rows)).cols,
      ColFrom folder proj (setColumn df key (seriesOf proj file.rows)).index c := by
  intro c hc
  rw [cols_setColumn] at hc
  rw [index_setColumn]
  by_cases h1 : df.cols.isEmpty = true
  · rw [if_pos h1] at hc
    rw [if_pos h1]
    rcases List.mem_singleton.mp hc with rfl
    exact ⟨file, hfile, Or.inl rfl⟩
  · rw [if_neg h1] at hc
    rw [if_neg h1]
    by_cases h2 : df.cols.any (fun c0 => c0.1 == key) = true
    · rw [if_pos h2] at hc
      rcases List.mem_map.mp hc with ⟨c0, hc0, hcc⟩
      by_cases hk : (c0.1 == key) = true
      · rw [if_pos hk] at hcc
        subst hcc
        exact ⟨file, hfile, Or.inr rfl⟩
      · rw [if_neg hk] at hcc
        subst hcc
        exact hdf c0 hc0
    · rw [if_neg h2] at hc
      rcases List.mem_append.mp hc with h | h
      · exact hdf c h
      · rcases List.mem_singleton.mp h with rfl
        exact ⟨file, hfile, Or.inr rfl⟩

/-- Key lists stay equal when the same key is assigned to two frames with
equal key lists. -/
theorem colKeys_setColumn_congr (df1 df2 : DataFrame) (key : String)
    (s1 s2 : List (Rat × Rat)) (h : colKeys df1 = colKeys df2) :
    colKeys (setColumn df1 key s1) = colKeys (setColumn df2 key s2) := by
  have he := isEmpty_cols_congr df1 df2 h
  have ha : df1.cols.any (fun c => c.1 == key) =
      df2.cols.any (fun c => c.1 == key) := by
    rw [any_fst_eq_any_keys, any_fst_eq_any_keys]
    show (colKeys df1).any _ = (colKeys df2).any _
    rw [h]
  rw [colKeys_setColumn, colKeys_setColumn, he, ha, h]

/-- The column-level invariant of the merge loop: equal key lists and
per-table column provenance. -/
def ColInv (folder : List CospectraFile) (st : DataFrame × DataFrame) : Prop :=
  colKeys st.1 = colKeys st.2 ∧
  (∀ c ∈ st.1.cols, ColFrom folder (fun r => r.spec_ts) st.1.index c) ∧
  (∀ c ∈ st.2.cols, ColFrom folder (fun r => r.cospec_w_ts) st.2.index c)

/-- One merge-loop iteration preserves the column-level invariant. -/
theorem colInv_mergeStep (folder : List CospectraFile)
    (st : DataFrame × DataFrame) (f : String) (h : ColInv folder st) :
    ColInv folder (mergeStep folder st f) := by
  unfold mergeStep
  split
  · exact h
  · rename_i file heq
    have hfile : file ∈ folder := (List.mem_filter.mp (mem_of_head_some heq)).1
    exact ⟨colKeys_setColumn_congr st.1 st.2 _ _ _ h.1,
      colFrom_setColumn folder _ st.1 _ file hfile h.2.1,
      colFrom_setColumn folder _ st.2 _ file hfile h.2.2⟩

/-- C4: merge_good_files returns exactly two frequency-indexed tables with
identical column-name lists; every column of the first is the
f_nat*spec(ts) series of some folder file and every column of the second
the f_nat*cospec(w_ts) series of some folder file (stored directly on the
first assignment or aligned to the frame index), so each processed file
pattern names one column in each table. -/
theorem merge_good_files_two_tables (gf : List String)
    (folder : List CospectraFile) :
    colKeys (merge_good_files gf folder).1 =
      colKeys (merge_good_files gf folder).2 ∧
    (∀ c ∈ (merge_good_files gf folder).1.cols,
        ColFrom folder (fun r => r.spec_ts)
          (merge_good_files gf folder).1.index c) ∧
    (∀ c ∈ (merge_good_files gf folder).2.cols,
        ColFrom folder (fun r => r.cospec_w_ts)
          (merge_good_files gf folder).2.index c) :=
  foldl_inv (mergeStep folder) (ColInv folder) gf (emptyDF, emptyDF)
    ⟨rfl, fun c hc => by simp [emptyDF] at hc, fun c hc => by simp [emptyDF] at hc⟩
    (fun st a _ hst => colInv_mergeStep folder st a hst)

/-- C4 (witness): on the sample data the single spectra column has the
required provenance. -/
theorem merge_good_files_two_tables_witness :
    ColFrom sampleFolder (fun r => r.spec_ts)
      (merge_good_files sampleGoodFiles sampleFolder).1.index
      ("20190712-0230", [some 2]) :=
  (merge_good_files_two_tables sampleGoodFiles sampleFolder).2.1
    ("20190712-0230", [some 2]) (by decide)

/-- The row-median list has one entry per index entry. -/
theorem length_rowMedians (df : DataFrame) :
    (rowMedians df).length = df.index.length := by
  unfold rowMedians
  rw [List.length_map, List.length_range]

/-- Entry i of the row-median list is the median of the values of row i. -/
theorem rowMedians_getElem (df : DataFrame) (i : Nat)
    (hi : i < df.index.length) :
    (rowMedians df)[i]? = some (median (rowCells df i)) := by
  unfold rowMedians
  rw [List.getElem?_map, List.getElem?_range hi]
  rfl

/-- Point i of the plotted median series pairs index entry i with the
median of the values of row i. -/
theorem medianSeries_getElem (df : DataFrame) (i : Nat)
    (hi : i < df.index.length) :
    (medianSeries df)[i]? = some (df.index[i], median (rowCells df i)) := by
  unfold medianSeries
  have hm : i < (rowMedians df).length := by rw [length_rowMedians]; exact hi
  have hz : i < (df.index.zip (rowMedians df)).length := by
    rw [List.length_zip, length_rowMedians, Nat.min_self]
    exact hi
  rw [List.getElem?_eq_getElem hz, List.getElem_zip]
  have h := rowMedians_getElem df i hi
  rw [List.getElem?_eq_getElem hm, Option.some.injEq] at h
  rw [h]

/-- C5: both plot functions draw the per-row median and smooth exactly it:
the dotted data curve of each figure is the median series of its table,
the list handed to the smoother is the same row-median list, and entry i
of both pairs index entry i with the median of the values of row i. -/
theorem plots_use_row_median (L : LowessFn) (df : DataFrame) (i : Nat)
    (hi : i < df.index.length) :
    (plot_spectras L df).curves.map (fun c => c.pts) =
      [medianSeries df,
       ((L (rowMedians df) df.index (1 / 100) 0).drop 40).map
         (fun p => (p.1, some p.2))] ∧
    (plot_cospectras L df).curves.map (fun c => c.pts) =
      [medianSeries df,
       (L (rowMedians df) df.index (5 / 100) 0).map (fun p => (p.1, some p.2))] ∧
    (medianSeries df)[i]? = some (df.index[i], median (rowCells df i)) ∧
    (rowMedians df)[i]? = some (median (rowCells df i)) :=
  ⟨rfl, rfl, medianSeries_getElem df i hi, rowMedians_getElem df i hi⟩

/-- C5 (witness): on the sample frame row 0 has the single value 2 and
its plotted median is 2. -/
theorem plots_use_row_median_witness :
    (rowMedians sampleDF)[0]? = some (median (rowCells sampleDF 0)) ∧
    median (rowCells sampleDF 0) = some 2 :=
  ⟨(plots_use_row_median (fun _ _ _ _ => []) sampleDF 0 (by decide)).2.2.2,
    by decide⟩

/-- C6: the fixed power-law reference curve with coefficient 0.006 and
exponent -4/3, over linspace(0.2, 5), is overlaid on the cospectrum
figure and only there: the spectrum figure carries no reference curve. -/
theorem cospectra_ref_curve (L : LowessFn) (df : DataFrame) :
    (plot_cospectras L df).powerRefs =
      [{ label := "-4/3 slope", style := "r--", coeff := 6 / 1000,
         expo := -(4 / 3), xs := linspace (2 / 10) 5 50 }] ∧
    (plot_spectras L df).powerRefs = [] ∧
    ((6 : Rat) / 1000 = 0.006) ∧ ((2 : Rat) / 10 = 0.2) :=
  ⟨rfl, rfl, by norm_num, by norm_num⟩

/-- C7: main executes the pipeline in the fixed order with no step skipped
or repeated: the result is the spectra plot (figure 1) of the first table
and the cospectra plot (figure 2) of the second table of the merge of the
quality-filtered files. -/
theorem main_pipeline (L : LowessFn) (fo : List FullOutputRow)
    (folder : List CospectraFile) :
    main L fo folder =
      (plot_spectras L (merge_good_files (get_good_files fo) folder).1,
       plot_cospectras L (merge_good_files (get_good_files fo) folder).2) ∧
    (main L fo folder).1.figId = 1 ∧ (main L fo folder).2.figId = 2 :=
  ⟨rfl, rfl, rfl⟩

/-- C9: the two figures smooth with different parameters and trim
differently: figure 1 calls the smoother with frac = 0.01 and draws the
result without its first 40 points, figure 2 calls it with frac = 0.05
and draws every smoothed point. -/
theorem lowess_frac_trim (L : LowessFn) (df : DataFrame) :
    (plot_spectras L df).curves[1]? =
      some { label := "lowess fit", style := "b",
             pts := ((L (rowMedians df) df.index (1 / 100) 0).drop 40).map
               (fun p => (p.1, some p.2)) } ∧
    (plot_cospectras L df).curves[1]? =
      some { label := "lowess fit", style := "b",
             pts := (L (rowMedians df) df.index (5 / 100) 0).map
               (fun p => (p.1, some p.2)) } ∧
    ((1 : Rat) / 100 = 0.01) ∧ ((5 : Rat) / 100 = 0.05) :=
  ⟨rfl, rfl, by norm_num, by norm_num⟩

end PlotCospectras
